import Mathlib

/-!
Shallow embedding of the XPLX access bot entitlement engine
(src/index.js and src/shopify.js): tier resolution, exclusive role
reconciliation, the interactive verification workflow, the subscription
audit sweep, and the persisted email map.  Timestamps are modelled as
integer milliseconds; the Discord and Shopify collaborators are modelled
as explicit environment records, and every observable side effect (log
post, role addition, role removal) is collected into an event trace.
-/

namespace XplxBot

/-- Characters of a string with leading and trailing whitespace removed,
mirroring the JavaScript String.prototype.trim used by the source. -/
def trimChars (cs : List Char) : List Char :=
  ((cs.dropWhile Char.isWhitespace).reverse.dropWhile Char.isWhitespace).reverse

/-- From src/index.js, function normalize: trim then lower-case
(titles and match keys in this repository are ASCII). -/
def normalize (s : String) : String :=
  String.mk ((trimChars s.data).map Char.toLower)

/-- From src/index.js, function normEmail: trim then lower-case. -/
def normEmail (email : String) : String :=
  String.mk ((trimChars email.data).map Char.toLower)

/-- Helper for substring containment on character lists: true when `sub`
occurs contiguously inside the haystack. -/
def includesFrom : List Char → List Char → Bool
  | [], sub => sub.isEmpty
  | c :: rest, sub => sub.isPrefixOf (c :: rest) || includesFrom rest sub

/-- JavaScript String.prototype.includes, as used by the source. -/
def includes (s sub : String) : Bool :=
  includesFrom s.data sub.data

/-- From src/index.js: one entry of the TIERS configuration list. -/
structure Tier where
  product : String
  role : String
deriving DecidableEq, Repr

/-- From src/index.js: the ordered tier list, highest priority first. -/
def TIERS : List Tier :=
  [⟨"ELITE TRADER MENTORSHIP", "Elite Member"⟩,
   ⟨"MARKET EXECUTION PROGRAM", "Execution Member"⟩,
   ⟨"MARKET FOUNDATION PROGRAM", "Foundation Member"⟩,
   ⟨"VIP ACCESS", "VIP"⟩,
   ⟨"FREE DISCORD ACCESS", "Members"⟩]

/-- From src/index.js: the always-present base role. -/
def BASE_ROLE_NAME : String := "Members"

/-- From src/index.js: all configured tier role names. -/
def ALL_ROLE_NAMES : List String := TIERS.map (fun t => t.role)

/-- Match predicate of the tier resolver: some title, after
normalization, contains the normalized product match key. -/
def tierMatches (titles : List String) (t : Tier) : Bool :=
  (titles.map normalize).any (fun x => includes x (normalize t.product))

/-- From src/index.js, function pickHighestTier: first tier in the
ordered TIERS list matched by any normalized title. -/
def pickHighestTier (titles : List String) : Option Tier :=
  TIERS.find? (fun t => (titles.map normalize).any (fun x => includes x (normalize t.product)))

/-- From src/index.js, function isTierTitleMatch. -/
def isTierTitleMatch (lineItemTitle tierProductName : String) : Bool :=
  includes (normalize lineItemTitle) (normalize tierProductName)

/-- From src/index.js, function daysBetween: floor of the millisecond
difference divided by one day, exactly as Math.floor does. -/
def daysBetween (now past : Int) : Int :=
  Int.fdiv (now - past) 86400000

/-- Result of parsing a stored payment timestamp: a valid date value in
milliseconds, or an unparseable string (NaN date). -/
inductive PaidStamp
  | valid (ms : Int)
  | invalid
deriving DecidableEq, Repr

/-- A JavaScript Date value: a definite millisecond time or NaN. -/
inductive DateVal
  | ok (ms : Int)
  | nan
deriving DecidableEq, Repr

/-- Math.max over Date values: NaN absorbs. -/
def jsMaxD : DateVal → DateVal → DateVal
  | DateVal.nan, _ => DateVal.nan
  | _, DateVal.nan => DateVal.nan
  | DateVal.ok a, DateVal.ok b => DateVal.ok (max a b)

/-- One stored record of the email map (src/index.js, the emailMap
entries).  lastPaidAt is none when the field is missing, null or empty,
and some invalid when present but unparseable as a date. -/
structure EmailRecord where
  discordUserId : String
  userTag : String
  tier : String
  isSubscription : Bool
  lastPaidAt : Option PaidStamp
  lastAuditAt : Option Int
  lastAuditReason : Option String
  updatedAt : Int
deriving DecidableEq, Repr

/-- The persisted email map, as an association list with unique keys
(a JavaScript object keyed by normalized email). -/
abbrev Store := List (String × EmailRecord)

/-- Assignment map[k] = v on the object: replace the value at an
existing key, append the key otherwise. -/
def updateAssoc : Store → String → EmailRecord → Store
  | [], k, v => [(k, v)]
  | (k1, v1) :: rest, k, v =>
    if k1 = k then (k, v) :: rest else (k1, v1) :: updateAssoc rest k v

/-- Observable side effects of the engine: a posted log event (with the
record email it concerns, empty for sweep boundaries), a role addition,
or a bulk role removal against the membership API. -/
inductive Event
  | log (event : String) (email : String)
  | addRole (memberId : String) (roleName : String)
  | removeRoles (memberId : String) (roleNames : List String)
deriving DecidableEq, Repr

/-- True exactly for membership API mutations. -/
def isRoleMutation : Event → Bool
  | Event.log _ _ => false
  | Event.addRole _ _ => true
  | Event.removeRoles _ _ => true

/-- Member role sets: member.roles.add, a no-op when already held. -/
def addRoleSet (roles : List String) (r : String) : List String :=
  if roles.contains r then roles else roles ++ [r]

/-- Member role sets: member.roles.remove over a list of roles. -/
def removeRoleSet (roles : List String) (rs : List String) : List String :=
  roles.filter (fun x => !(rs.contains x))

/-- From src/index.js, function setExclusiveTierRole: add the base role,
add the target role, then remove every other configured tier role that
exists in the guild.  Throws when the base or target role is absent from
the guild role set.  Returns the member's new role set and the trace of
membership API calls, in order. -/
def setExclusiveTierRole (guildRoles memberRoles : List String) (memberId roleName : String) :
    Except String (List String × List Event) :=
  if !(guildRoles.contains BASE_ROLE_NAME) then
    Except.error ("Base role not found: " ++ BASE_ROLE_NAME)
  else if !(guildRoles.contains roleName) then
    Except.error ("Target role not found: " ++ roleName)
  else
    let r1 := addRoleSet memberRoles BASE_ROLE_NAME
    let r2 := addRoleSet r1 roleName
    let toRemove :=
      (ALL_ROLE_NAMES.filter (fun n => n != BASE_ROLE_NAME && n != roleName)).filter
        (fun n => guildRoles.contains n)
    let r3 := removeRoleSet r2 toRemove
    Except.ok (r3,
      [Event.addRole memberId BASE_ROLE_NAME, Event.addRole memberId roleName]
        ++ (if toRemove.isEmpty then [] else [Event.removeRoles memberId toRemove]))

/-- From src/index.js, function downgradeToMembers: add the base role,
then remove every configured tier role other than the base that exists
in the guild.  Throws when the base role is absent. -/
def downgradeToMembers (guildRoles : List String) (memberId : String) :
    Except String (List Event) :=
  if !(guildRoles.contains BASE_ROLE_NAME) then
    Except.error ("Base role not found: " ++ BASE_ROLE_NAME)
  else
    let toRemove :=
      (ALL_ROLE_NAMES.filter (fun n => n != BASE_ROLE_NAME)).filter
        (fun n => guildRoles.contains n)
    Except.ok ([Event.addRole memberId BASE_ROLE_NAME]
      ++ (if toRemove.isEmpty then [] else [Event.removeRoles memberId toRemove]))

/-- Audit configuration: AUDIT_GRACE_DAYS and AUDIT_DRY_RUN. -/
structure AuditCfg where
  graceDays : Int
  dryRun : Bool
deriving DecidableEq, Repr

/-- Discord environment the audit sweep runs against: the first cached
guild with its role names (none when no guild is cached), whether a
member id can still be fetched, and the sweep clock in milliseconds. -/
structure AuditEnv where
  guild : Option (List String)
  memberPresent : String → Bool
  nowMs : Int

/-- Outcome of processing one record: the store afterwards, the emitted
events, and the error message when the body threw (caught by the sweep). -/
structure AuditStep where
  store : Store
  events : List Event
  fault : Option String
deriving DecidableEq, Repr

/-- One iteration of the per-record loop body of runSubscriptionAudit
(src/index.js): subscription-only gate, user id gate, lastPaidAt safety
skips, grace threshold, live member lookup, dry-run gate, downgrade and
record update. -/
def processRecord (env : AuditEnv) (cfg : AuditCfg) (store : Store)
    (email : String) (rec : EmailRecord) : AuditStep :=
  if rec.isSubscription == false then ⟨store, [], none⟩
  else if rec.discordUserId == "" then ⟨store, [], none⟩
  else
    match rec.lastPaidAt with
    | none => ⟨store, [Event.log "audit_skip_missing_lastPaidAt" email], none⟩
    | some PaidStamp.invalid => ⟨store, [Event.log "audit_skip_invalid_lastPaidAt" email], none⟩
    | some (PaidStamp.valid t) =>
      if daysBetween env.nowMs t < cfg.graceDays then ⟨store, [], none⟩
      else
        match env.guild with
        | none => ⟨store, [], none⟩
        | some guildRoles =>
          if env.memberPresent rec.discordUserId == false then
            ⟨store, [Event.log "audit_member_not_found" email], none⟩
          else if cfg.dryRun then
            ⟨store, [Event.log "audit_overdue_detected" email], none⟩
          else
            match downgradeToMembers guildRoles rec.discordUserId with
            | Except.error msg =>
              ⟨store, [Event.log "audit_overdue_detected" email], some msg⟩
            | Except.ok devs =>
              ⟨updateAssoc store email
                  { rec with
                    tier := BASE_ROLE_NAME,
                    lastAuditAt := some env.nowMs,
                    lastAuditReason := some ("overdue_" ++ toString (daysBetween env.nowMs t) ++ "d"),
                    updatedAt := env.nowMs },
                Event.log "audit_overdue_detected" email :: devs
                  ++ [Event.log "audit_downgrade_success" email],
                none⟩

/-- The sweep loop over the entry snapshot: a fault in one record is
caught, logged as audit_error, and the loop continues with the store
unchanged by the faulting record. -/
def processEntries (env : AuditEnv) (cfg : AuditCfg) :
    List (String × EmailRecord) → Store → Store × List Event
  | [], store => (store, [])
  | (email, rec) :: rest, store =>
    let step := processRecord env cfg store email rec
    let evs :=
      match step.fault with
      | some _ => step.events ++ [Event.log "audit_error" email]
      | none => step.events
    let tail := processEntries env cfg rest step.store
    (tail.1, evs ++ tail.2)

/-- From src/index.js, function runSubscriptionAudit: post the start
boundary, process every entry of the loaded map, post the end boundary. -/
def runSubscriptionAudit (env : AuditEnv) (cfg : AuditCfg) (map : Store) :
    Store × List Event :=
  let body := processEntries env cfg map map
  (body.1, Event.log "audit_start" "" :: body.2 ++ [Event.log "audit_end" ""])

/-- A purchased line item as consumed by the verification handler in
src/index.js: the paidAt field is optional and may fail to parse. -/
structure LineItem where
  title : String
  isSubscription : Bool
  sellingPlanName : Option String
  paidAt : Option DateVal
deriving DecidableEq, Repr

/-- The lastPaidAt computation of the verify handler: newest paidAt
across ALL fetched line items, null when none is present or the
Math.max result is NaN. -/
def computeLastPaid (items : List LineItem) : Option Int :=
  match items.filterMap (fun x => x.paidAt) with
  | [] => none
  | d :: ds =>
    match ds.foldl jsMaxD d with
    | DateVal.ok t => some t
    | DateVal.nan => none

/-- Terminal outcomes of the verify workflow. -/
inductive VerifyOutcome
  | invalidEmail
  | alreadyLinked
  | noPaidOrder
  | paidNoTierMatch
  | verified (role : String)
  | failed (msg : String)
deriving DecidableEq, Repr

/-- Environment of one verify request: the commerce gateway result (an
error models a thrown fetch), the guild role names, the requesting
member's current roles, and the wall clock. -/
structure VerifyEnv where
  items : Except String (List LineItem)
  guildRoles : List String
  memberRoles : List String
  nowMs : Int

/-- A verify request: the requesting user and the raw email option. -/
structure VerifyReq where
  userId : String
  userTag : String
  rawEmail : String
deriving DecidableEq, Repr

/-- Result of the verify handler: terminal outcome, the store after the
request, and the event trace. -/
structure VerifyResult where
  outcome : VerifyOutcome
  store : Store
  events : List Event
deriving DecidableEq, Repr

/-- The /verify interaction handler of src/index.js: email validation,
binding conflict check, purchase fetch, tier resolution, tier-scoped
subscription flag, lastPaidAt computation, exclusive role grant, and
record persistence.  A throw from the gateway or the role handler is
caught and surfaces as the failed outcome with no record written. -/
def verifyHandler (env : VerifyEnv) (store : Store) (req : VerifyReq) : VerifyResult :=
  let email := normEmail req.rawEmail
  let evs0 := [Event.log "verify_requested" email]
  if email == "" || !(includes email "@") then
    ⟨VerifyOutcome.invalidEmail, store, evs0 ++ [Event.log "verify_invalid_email" email]⟩
  else if (match List.lookup email store with
           | some rec => rec.discordUserId != req.userId
           | none => false) then
    ⟨VerifyOutcome.alreadyLinked, store, evs0 ++ [Event.log "verify_email_already_linked" email]⟩
  else
    match env.items with
    | Except.error msg =>
      ⟨VerifyOutcome.failed msg, store, evs0 ++ [Event.log "verify_error" email]⟩
    | Except.ok items =>
      let titles := items.map (fun i => i.title)
      let evs1 := evs0 ++ [Event.log "shopify_line_items" email]
      if titles.isEmpty then
        ⟨VerifyOutcome.noPaidOrder, store, evs1 ++ [Event.log "verify_no_paid_orders" email]⟩
      else
        match pickHighestTier titles with
        | none =>
          ⟨VerifyOutcome.paidNoTierMatch, store,
            evs1 ++ [Event.log "tier_matched" email, Event.log "verify_paid_but_no_tier_match" email]⟩
        | some tier =>
          match setExclusiveTierRole env.guildRoles env.memberRoles req.userId tier.role with
          | Except.error msg =>
            ⟨VerifyOutcome.failed msg, store,
              evs1 ++ [Event.log "tier_matched" email, Event.log "verify_error" email]⟩
          | Except.ok (_, roleEvs) =>
            ⟨VerifyOutcome.verified tier.role,
              updateAssoc store email
                { discordUserId := req.userId,
                  userTag := req.userTag,
                  tier := tier.role,
                  isSubscription := items.any (fun li =>
                    isTierTitleMatch li.title tier.product && li.isSubscription),
                  lastPaidAt := (computeLastPaid items).map PaidStamp.valid,
                  lastAuditAt := none,
                  lastAuditReason := none,
                  updatedAt := env.nowMs },
              evs1 ++ [Event.log "tier_matched" email] ++ roleEvs
                ++ [Event.log "verify_success" email]⟩

/-- A raw Shopify line item as returned by the GraphQL query of
src/shopify.js: only a title and an optional selling plan name are
requested, no payment timestamp field. -/
structure RawLineItem where
  title : String
  sellingPlan : Option String
deriving DecidableEq, Repr

/-- A raw Shopify order node: its line items. -/
structure ShopOrder where
  lineItems : List RawLineItem
deriving DecidableEq, Repr

/-- An item built by getPaidLineItemsByEmail in src/shopify.js: exactly
the fields title, isSubscription and sellingPlanName. -/
structure ShopItem where
  title : String
  isSubscription : Bool
  sellingPlanName : Option String
deriving DecidableEq, Repr

/-- The selling plan name of a raw line item, with the empty string
collapsing to null as in the source expression. -/
def planNameOf (li : RawLineItem) : Option String :=
  match li.sellingPlan with
  | some n => if n = "" then none else some n
  | none => none

/-- The nested collection loop of getPaidLineItemsByEmail. -/
def collectItems : List ShopOrder → List ShopItem
  | [] => []
  | o :: rest =>
    o.lineItems.map (fun li => ⟨li.title, (planNameOf li).isSome, planNameOf li⟩)
      ++ collectItems rest

/-- From src/shopify.js, function getPaidLineItemsByEmail, applied to
the orders returned by the GraphQL query. -/
def getPaidLineItemsByEmail (orders : List ShopOrder) : List ShopItem :=
  collectItems orders

/-- Reading a field that the Shopify item object does not carry yields
undefined: the injection of a Shopify item into the handler's line item
shape has no paidAt. -/
def shopItemToLineItem (i : ShopItem) : LineItem :=
  ⟨i.title, i.isSubscription, i.sellingPlanName, none⟩

/-- State of the persisted email map file. -/
inductive FileState
  | missing
  | corrupted (raw : String)
  | parsed (s : Store)
deriving DecidableEq, Repr

/-- fs.existsSync on the email map path. -/
def fileExists : FileState → Bool
  | FileState.missing => false
  | FileState.corrupted _ => true
  | FileState.parsed _ => true

/-- Reading and JSON-parsing the file: throws on a missing file or on
malformed contents. -/
def readFileJson : FileState → Except String Store
  | FileState.missing => Except.error "ENOENT"
  | FileState.corrupted _ => Except.error "SyntaxError"
  | FileState.parsed s => Except.ok s

/-- From src/index.js, function loadEmailMap: an absent file yields the
empty object, and a parse failure is caught and yields the empty
object. -/
def loadEmailMap (f : FileState) : Store :=
  if fileExists f == false then []
  else
    match readFileJson f with
    | Except.ok s => s
    | Except.error _ => []

/-- From src/index.js, function saveEmailMap: a full overwrite of the
persisted file with the serialized map, whatever was there before. -/
def saveEmailMap (_ : FileState) (map : Store) : FileState :=
  FileState.parsed map

/-- Follows the words of the specification for lastPaidAt: the most
recent payment timestamp among the line items matching the granted
tier.  Used only to compare against the source computation. -/
def specTierScopedLastPaid (items : List LineItem) (t : Tier) : Option Int :=
  match (items.filter (fun li => isTierTitleMatch li.title t.product)).filterMap
      (fun li => match li.paidAt with | some (DateVal.ok ms) => some ms | _ => none) with
  | [] => none
  | a :: as => some (as.foldl max a)

/-- Most recent valid payment timestamp across all items, used to state
the amended lastPaidAt property. -/
def maxPaidAllItems (items : List LineItem) : Option Int :=
  match items.filterMap
      (fun li => match li.paidAt with | some (DateVal.ok ms) => some ms | _ => none) with
  | [] => none
  | a :: as => some (as.foldl max a)

/-- Fixture: a guild carrying every configured role plus an unrelated one. -/
def exGuildRoles : List String :=
  ["Members", "Elite Member", "Execution Member", "Foundation Member", "VIP", "Moderator"]

/-- Fixture: fetched line items where the matched tier item is older than
an unrelated one-time purchase. -/
def exItems : List LineItem :=
  [⟨"VIP ACCESS PASS", true, some "monthly", some (DateVal.ok 100)⟩,
   ⟨"RANDOM STICKER", false, none, some (DateVal.ok 200)⟩]

/-- Fixture: a verification environment returning exItems. -/
def exVerifyEnv : VerifyEnv := ⟨Except.ok exItems, exGuildRoles, ["Members", "Elite Member"], 777⟩

/-- Fixture: a verification request. -/
def exReq : VerifyReq := ⟨"userB", "tagB", " Buyer@Example.com "⟩

/-- Fixture: an audit environment at day 35 with every member present. -/
def exAuditEnv : AuditEnv := ⟨some exGuildRoles, fun _ => true, 35 * 86400000⟩

/-- Fixture: an audit environment whose guild lacks the base role, so
the downgrade call throws. -/
def exFaultEnv : AuditEnv := ⟨some ["VIP"], fun _ => true, 35 * 86400000⟩

/-- Fixture: a subscription record last paid at epoch, 35 days overdue
under exAuditEnv. -/
def exRecOverdue : EmailRecord := ⟨"u1", "tag1", "VIP", true, some (PaidStamp.valid 0), none, none, 5⟩

/-- Fixture: a subscription record last paid one day after epoch, hence
34 days old under exAuditEnv. -/
def exRecFresh : EmailRecord := ⟨"u1", "tag1", "VIP", true, some (PaidStamp.valid 86400000), none, none, 5⟩

/-- Fixture: a subscription record with no payment timestamp. -/
def exRecNoPaid : EmailRecord := ⟨"u2", "tag2", "VIP", true, none, none, none, 5⟩

/-- Fixture: a subscription record with no payment timestamp and no
bound user id. -/
def exRecNullUid : EmailRecord := ⟨"", "tag1", "VIP", true, none, none, none, 5⟩

/-- Fixture: raw Shopify orders as returned by the GraphQL query. -/
def exOrders : List ShopOrder :=
  [⟨[⟨"VIP ACCESS PASS", some "monthly"⟩, ⟨"RANDOM STICKER", none⟩]⟩]

/-- Fixture: a verification environment fed from the Shopify module. -/
def exShopEnv : VerifyEnv :=
  ⟨Except.ok ((getPaidLineItemsByEmail exOrders).map shopItemToLineItem),
   exGuildRoles, ["Members"], 777⟩

/-- A record the audit can never act on: not a subscription, or no
usable payment timestamp. -/
def AuditInert (rec : EmailRecord) : Prop :=
  rec.isSubscription = false ∨ rec.lastPaidAt = none ∨ rec.lastPaidAt = some PaidStamp.invalid

/-- The millisecond value of a definite date, none for NaN. -/
def dateOk : DateVal → Option Int
  | DateVal.ok ms => some ms
  | DateVal.nan => none

theorem mem_addRoleSet (l : List String) (x r : String) :
    r ∈ addRoleSet l x ↔ r ∈ l ∨ r = x := by
  unfold addRoleSet
  split
  · rename_i h
    constructor
    · exact fun hm => Or.inl hm
    · rintro (hm | rfl)
      · exact hm
      · exact List.elem_iff.mp h
  · simp

theorem mem_removeRoleSet (l rs : List String) (r : String) :
    r ∈ removeRoleSet l rs ↔ r ∈ l ∧ r ∉ rs := by
  unfold removeRoleSet
  simp [List.mem_filter, List.elem_iff]

theorem findDecomp {α : Type} (p : α → Bool) (l : List α) (a : α) (h : l.find? p = some a) :
    p a = true ∧ ∃ l1 l2, l = l1 ++ a :: l2 ∧ ∀ x ∈ l1, p x = false := by
  induction l with
  | nil => simp [List.find?] at h
  | cons b t ih =>
    rw [List.find?] at h
    cases hb : p b with
    | true =>
      rw [hb] at h
      simp at h
      subst h
      exact ⟨hb, [], t, rfl, by simp⟩
    | false =>
      rw [hb] at h
      simp at h
      obtain ⟨hpa, l1, l2, rfl, hall⟩ := ih h
      refine ⟨hpa, b :: l1, l2, rfl, ?_⟩
      intro x hx
      rcases List.mem_cons.mp hx with rfl | hx2
      · exact hb
      · exact hall x hx2

theorem lookup_updateAssoc_self (s : Store) (k : String) (v : EmailRecord) :
    List.lookup k (updateAssoc s k v) = some v := by
  induction s with
  | nil => simp [updateAssoc, List.lookup]
  | cons p rest ih =>
    obtain ⟨k1, v1⟩ := p
    unfold updateAssoc
    split
    · simp [List.lookup]
    · rename_i hne
      rw [List.lookup]
      rw [show (k == k1) = false from by simp [beq_iff_eq]; intro hk; exact hne hk.symm]
      exact ih

theorem lookup_updateAssoc_other (s : Store) (k k2 : String) (v : EmailRecord) (h : k2 ≠ k) :
    List.lookup k2 (updateAssoc s k v) = List.lookup k2 s := by
  induction s with
  | nil =>
    simp only [updateAssoc, List.lookup]
    rw [show (k2 == k) = false from by simp [beq_iff_eq, h]]
  | cons p rest ih =>
    obtain ⟨k1, v1⟩ := p
    unfold updateAssoc
    split
    · rename_i hk1
      subst hk1
      rw [List.lookup, List.lookup]
      rw [show (k2 == k1) = false from by simp [beq_iff_eq, h]]
    · rw [List.lookup, List.lookup]
      cases hbe : (k2 == k1) with
      | true => rfl
      | false => exact ih

theorem pickHighestTier_eq_find (titles : List String) :
    pickHighestTier titles = TIERS.find? (fun t => tierMatches titles t) := rfl

theorem base_mem_all_roles : BASE_ROLE_NAME ∈ ALL_ROLE_NAMES := by decide

theorem mem_toRemoveSet (g : List String) (rn r : String) :
    r ∈ (ALL_ROLE_NAMES.filter (fun n => n != BASE_ROLE_NAME && n != rn)).filter
          (fun n => g.contains n)
      ↔ r ∈ ALL_ROLE_NAMES ∧ r ≠ BASE_ROLE_NAME ∧ r ≠ rn ∧ r ∈ g := by
  simp [List.mem_filter, List.elem_iff, Bool.and_eq_true, bne_iff_ne]
  tauto

/-- C4: pickHighestTier returns none exactly when no title matches any
configured tier, and otherwise returns a matching tier that is earliest
in the configured priority list: every tier listed before it fails to
match, so a lower-priority tier is never returned when a higher one
matches. -/
theorem pickHighestTier_priority :
    ∀ titles : List String,
      (pickHighestTier titles = none ↔ ∀ t ∈ TIERS, tierMatches titles t = false)
      ∧ (∀ t : Tier, pickHighestTier titles = some t →
          t ∈ TIERS ∧ tierMatches titles t = true
            ∧ ∃ l1 l2, TIERS = l1 ++ t :: l2 ∧ ∀ u ∈ l1, tierMatches titles u = false) := by
  intro titles
  constructor
  · rw [pickHighestTier_eq_find, List.find?_eq_none]
    constructor
    · intro h t ht
      simpa using h t ht
    · intro h t ht
      simp [h t ht]
  · intro t hfind
    rw [pickHighestTier_eq_find] at hfind
    obtain ⟨hp, l1, l2, heq, hall⟩ := findDecomp _ _ _ hfind
    refine ⟨?_, hp, l1, l2, heq, hall⟩
    rw [heq]
    exact List.mem_append_right _ (List.mem_cons_self _ _)

/-- Witness for C4 on the worked example of the specification: a title
set matching both the Elite and the VIP tier resolves to the Elite
tier, with every earlier (there is none) tier unmatched. -/
theorem pickHighestTier_priority_witness :
    (⟨"ELITE TRADER MENTORSHIP", "Elite Member"⟩ : Tier) ∈ TIERS
      ∧ tierMatches ["Elite Trader Mentorship Bundle", "VIP Access Pass"]
          ⟨"ELITE TRADER MENTORSHIP", "Elite Member"⟩ = true
      ∧ ∃ l1 l2, TIERS = l1 ++ (⟨"ELITE TRADER MENTORSHIP", "Elite Member"⟩ : Tier) :: l2
          ∧ ∀ u ∈ l1, tierMatches ["Elite Trader Mentorship Bundle", "VIP Access Pass"] u = false :=
  (pickHighestTier_priority ["Elite Trader Mentorship Bundle", "VIP Access Pass"]).2
    ⟨"ELITE TRADER MENTORSHIP", "Elite Member"⟩ (by decide)

/-- C2: when setExclusiveTierRole succeeds for a configured target tier
role, the member ends holding the base role and the target role, none of
the other configured tier roles, with unconfigured roles untouched; and
the mutation trace is add base, add target, then at most one removal
call that removes only other configured tier roles. -/
theorem setExclusiveTierRole_exclusive :
    ∀ (guildRoles memberRoles : List String) (memberId roleName : String)
      (newRoles : List String) (evs : List Event),
      roleName ∈ ALL_ROLE_NAMES →
      (∀ r ∈ memberRoles, r ∈ guildRoles) →
      setExclusiveTierRole guildRoles memberRoles memberId roleName
        = Except.ok (newRoles, evs) →
      (∀ r ∈ ALL_ROLE_NAMES, (r ∈ newRoles ↔ (r = BASE_ROLE_NAME ∨ r = roleName)))
        ∧ (∀ r, r ∉ ALL_ROLE_NAMES → (r ∈ newRoles ↔ r ∈ memberRoles))
        ∧ evs.take 2 = [Event.addRole memberId BASE_ROLE_NAME, Event.addRole memberId roleName]
        ∧ (∀ ev ∈ evs.drop 2, ∃ rs, ev = Event.removeRoles memberId rs
            ∧ ∀ r ∈ rs, r ∈ ALL_ROLE_NAMES ∧ r ≠ BASE_ROLE_NAME ∧ r ≠ roleName) := by
  intro g m mid rn nr evs hrn hsub hok
  simp only [setExclusiveTierRole] at hok
  split at hok
  · exact Except.noConfusion hok
  split at hok
  · exact Except.noConfusion hok
  rw [Except.ok.injEq, Prod.mk.injEq] at hok
  obtain ⟨hnew, hevs⟩ := hok
  subst hnew
  subst hevs
  refine ⟨?_, ?_, rfl, ?_⟩
  · intro r hrALL
    constructor
    · intro hrNew
      by_contra hcon
      push_neg at hcon
      obtain ⟨hne1, hne2⟩ := hcon
      rw [mem_removeRoleSet] at hrNew
      obtain ⟨hr2, hrT⟩ := hrNew
      rw [mem_addRoleSet, mem_addRoleSet] at hr2
      have hrm : r ∈ m := by
        rcases hr2 with (hm | hbase) | hrn2
        · exact hm
        · exact absurd hbase hne1
        · exact absurd hrn2 hne2
      exact hrT ((mem_toRemoveSet g rn r).mpr ⟨hrALL, hne1, hne2, hsub r hrm⟩)
    · rintro (rfl | rfl)
      · rw [mem_removeRoleSet, mem_addRoleSet, mem_addRoleSet]
        refine ⟨Or.inl (Or.inr rfl), ?_⟩
        intro hT
        exact ((mem_toRemoveSet g rn _).mp hT).2.1 rfl
      · rw [mem_removeRoleSet, mem_addRoleSet]
        refine ⟨Or.inr rfl, ?_⟩
        intro hT
        exact ((mem_toRemoveSet g r _).mp hT).2.2.1 rfl
  · intro r hrNot
    have hne1 : r ≠ BASE_ROLE_NAME := fun h => hrNot (h ▸ base_mem_all_roles)
    have hne2 : r ≠ rn := fun h => hrNot (h ▸ hrn)
    rw [mem_removeRoleSet, mem_addRoleSet, mem_addRoleSet]
    constructor
    · rintro ⟨(hm | hbase) | hrn2, -⟩
      · exact hm
      · exact absurd hbase hne1
      · exact absurd hrn2 hne2
    · intro hm
      refine ⟨Or.inl (Or.inl hm), ?_⟩
      intro hT
      exact hrNot ((mem_toRemoveSet g rn r).mp hT).1
  · intro ev hev
    replace hev : ev ∈ (if ((ALL_ROLE_NAMES.filter (fun n => n != BASE_ROLE_NAME && n != rn)).filter
        (fun n => g.contains n)).isEmpty then ([] : List Event)
        else [Event.removeRoles mid ((ALL_ROLE_NAMES.filter
          (fun n => n != BASE_ROLE_NAME && n != rn)).filter (fun n => g.contains n))]) := hev
    by_cases hTe : ((ALL_ROLE_NAMES.filter (fun n => n != BASE_ROLE_NAME && n != rn)).filter
        (fun n => g.contains n)).isEmpty
    · rw [if_pos hTe] at hev
      exact absurd hev (List.not_mem_nil ev)
    · rw [if_neg hTe] at hev
      rw [List.mem_singleton] at hev
      subst hev
      refine ⟨_, rfl, ?_⟩
      intro r hrT
      have hchar := (mem_toRemoveSet g rn r).mp hrT
      exact ⟨hchar.1, hchar.2.1, hchar.2.2.1⟩

/-- Witness for C2 on the worked example of the specification: granting
VIP to a member previously holding Elite Member leaves exactly the base
role plus VIP among the configured roles. -/
theorem setExclusiveTierRole_exclusive_witness :
    ("Elite Member" ∈ (["Members", "VIP"] : List String)
        ↔ ("Elite Member" = BASE_ROLE_NAME ∨ "Elite Member" = "VIP"))
      ∧ ("VIP" ∈ (["Members", "VIP"] : List String)
        ↔ ("VIP" = BASE_ROLE_NAME ∨ "VIP" = "VIP")) := by
  have h := setExclusiveTierRole_exclusive exGuildRoles ["Members", "Elite Member"] "u1" "VIP"
    ["Members", "VIP"]
    [Event.addRole "u1" "Members", Event.addRole "u1" "VIP",
     Event.removeRoles "u1" ["Elite Member", "Execution Member", "Foundation Member"]]
    (by decide) (by decide) (by rfl)
  exact ⟨h.1 "Elite Member" (by decide), h.1 "VIP" (by decide)⟩

theorem processRecord_shapes (env : AuditEnv) (cfg : AuditCfg) (s : Store)
    (e : String) (r : EmailRecord) :
    processRecord env cfg s e r = ⟨s, [], none⟩
      ∨ (∃ nm, processRecord env cfg s e r = ⟨s, [Event.log nm e], none⟩)
      ∨ (∃ msg, processRecord env cfg s e r
          = ⟨s, [Event.log "audit_overdue_detected" e], some msg⟩ ∧ cfg.dryRun = false)
      ∨ (∃ v devs, processRecord env cfg s e r
          = ⟨updateAssoc s e v,
             Event.log "audit_overdue_detected" e :: devs ++ [Event.log "audit_downgrade_success" e],
             none⟩ ∧ cfg.dryRun = false) := by
  unfold processRecord
  split
  · exact Or.inl rfl
  split
  · exact Or.inl rfl
  split
  · exact Or.inr (Or.inl ⟨_, rfl⟩)
  · exact Or.inr (Or.inl ⟨_, rfl⟩)
  split
  · exact Or.inl rfl
  split
  · exact Or.inl rfl
  split
  · exact Or.inr (Or.inl ⟨_, rfl⟩)
  split
  · exact Or.inr (Or.inl ⟨_, rfl⟩)
  rename_i hdry
  have hdry2 : cfg.dryRun = false := by revert hdry; cases cfg.dryRun <;> simp
  split
  · exact Or.inr (Or.inr (Or.inl ⟨_, rfl, hdry2⟩))
  · exact Or.inr (Or.inr (Or.inr ⟨_, _, rfl, hdry2⟩))

theorem processRecord_not_sub (env : AuditEnv) (cfg : AuditCfg) (s : Store)
    (e : String) (r : EmailRecord) (h : r.isSubscription = false) :
    processRecord env cfg s e r = ⟨s, [], none⟩ := by
  simp [processRecord, h]

theorem processRecord_no_uid (env : AuditEnv) (cfg : AuditCfg) (s : Store)
    (e : String) (r : EmailRecord) (h1 : r.isSubscription = true) (h2 : r.discordUserId = "") :
    processRecord env cfg s e r = ⟨s, [], none⟩ := by
  simp [processRecord, h1, h2]

theorem processRecord_missing (env : AuditEnv) (cfg : AuditCfg) (s : Store)
    (e : String) (r : EmailRecord) (h1 : r.isSubscription = true)
    (h2 : r.discordUserId ≠ "") (h3 : r.lastPaidAt = none) :
    processRecord env cfg s e r = ⟨s, [Event.log "audit_skip_missing_lastPaidAt" e], none⟩ := by
  simp [processRecord, h1, h2, h3]

theorem processRecord_invalid (env : AuditEnv) (cfg : AuditCfg) (s : Store)
    (e : String) (r : EmailRecord) (h1 : r.isSubscription = true)
    (h2 : r.discordUserId ≠ "") (h3 : r.lastPaidAt = some PaidStamp.invalid) :
    processRecord env cfg s e r = ⟨s, [Event.log "audit_skip_invalid_lastPaidAt" e], none⟩ := by
  simp [processRecord, h1, h2, h3]

theorem processRecord_fresh (env : AuditEnv) (cfg : AuditCfg) (s : Store)
    (e : String) (r : EmailRecord) (t : Int) (h1 : r.isSubscription = true)
    (h3 : r.lastPaidAt = some (PaidStamp.valid t))
    (h4 : daysBetween env.nowMs t < cfg.graceDays) :
    processRecord env cfg s e r = ⟨s, [], none⟩ := by
  by_cases h2 : r.discordUserId = ""
  · simp [processRecord, h1, h2]
  · simp [processRecord, h1, h2, h3, h4]

theorem downgradeToMembers_ok (g : List String) (mid : String) (hg : BASE_ROLE_NAME ∈ g) :
    downgradeToMembers g mid
      = Except.ok ([Event.addRole mid BASE_ROLE_NAME]
          ++ (if ((ALL_ROLE_NAMES.filter (fun n => n != BASE_ROLE_NAME)).filter
                (fun n => g.contains n)).isEmpty then []
              else [Event.removeRoles mid ((ALL_ROLE_NAMES.filter
                (fun n => n != BASE_ROLE_NAME)).filter (fun n => g.contains n))])) := by
  have hc : g.contains BASE_ROLE_NAME = true := List.elem_iff.mpr hg
  simp only [downgradeToMembers, hc, Bool.not_true, Bool.false_eq_true, if_false]

theorem processRecord_overdue (env : AuditEnv) (cfg : AuditCfg) (s : Store)
    (e : String) (r : EmailRecord) (t : Int) (g : List String)
    (h1 : r.isSubscription = true) (h2 : r.discordUserId ≠ "")
    (h3 : r.lastPaidAt = some (PaidStamp.valid t))
    (h4 : ¬(daysBetween env.nowMs t < cfg.graceDays))
    (h5 : env.guild = some g) (h6 : env.memberPresent r.discordUserId = true)
    (h7 : cfg.dryRun = false) (h8 : BASE_ROLE_NAME ∈ g) :
    ∃ devs, downgradeToMembers g r.discordUserId = Except.ok devs
      ∧ Event.addRole r.discordUserId BASE_ROLE_NAME ∈ devs
      ∧ processRecord env cfg s e r
        = ⟨updateAssoc s e
            { r with
              tier := BASE_ROLE_NAME,
              lastAuditAt := some env.nowMs,
              lastAuditReason := some ("overdue_" ++ toString (daysBetween env.nowMs t) ++ "d"),
              updatedAt := env.nowMs },
           Event.log "audit_overdue_detected" e :: devs ++ [Event.log "audit_downgrade_success" e],
           none⟩ := by
  refine ⟨_, downgradeToMembers_ok g r.discordUserId h8, by simp, ?_⟩
  simp [processRecord, h1, h2, h3, h4, h5, h6, h7, downgradeToMembers_ok g r.discordUserId h8]

theorem processRecord_dryRun_detect (env : AuditEnv) (cfg : AuditCfg) (s : Store)
    (e : String) (r : EmailRecord) (t : Int) (g : List String)
    (h1 : r.isSubscription = true) (h2 : r.discordUserId ≠ "")
    (h3 : r.lastPaidAt = some (PaidStamp.valid t))
    (h4 : ¬(daysBetween env.nowMs t < cfg.graceDays))
    (h5 : env.guild = some g) (h6 : env.memberPresent r.discordUserId = true)
    (h7 : cfg.dryRun = true) :
    processRecord env cfg s e r = ⟨s, [Event.log "audit_overdue_detected" e], none⟩ := by
  simp [processRecord, h1, h2, h3, h4, h5, h6, h7]

theorem processRecord_inert_frame (env : AuditEnv) (cfg : AuditCfg) (s : Store)
    (e : String) (r : EmailRecord) (hin : AuditInert r) :
    (processRecord env cfg s e r).store = s
      ∧ (processRecord env cfg s e r).fault = none
      ∧ ∀ ev ∈ (processRecord env cfg s e r).events, isRoleMutation ev = false := by
  rcases hin with h | h | h
  · rw [processRecord_not_sub env cfg s e r h]
    exact ⟨rfl, rfl, by simp⟩
  all_goals cases hsub : r.isSubscription
  · rw [processRecord_not_sub env cfg s e r hsub]
    exact ⟨rfl, rfl, by simp⟩
  · by_cases huid : r.discordUserId = ""
    · rw [processRecord_no_uid env cfg s e r hsub huid]
      exact ⟨rfl, rfl, by simp⟩
    · rw [processRecord_missing env cfg s e r hsub huid h]
      exact ⟨rfl, rfl, by simp [isRoleMutation]⟩
  · rw [processRecord_not_sub env cfg s e r hsub]
    exact ⟨rfl, rfl, by simp⟩
  · by_cases huid : r.discordUserId = ""
    · rw [processRecord_no_uid env cfg s e r hsub huid]
      exact ⟨rfl, rfl, by simp⟩
    · rw [processRecord_invalid env cfg s e r hsub huid h]
      exact ⟨rfl, rfl, by simp [isRoleMutation]⟩

theorem processRecord_dryRun_frame (env : AuditEnv) (cfg : AuditCfg) (s : Store)
    (e : String) (r : EmailRecord) (hdry : cfg.dryRun = true) :
    (processRecord env cfg s e r).store = s
      ∧ (processRecord env cfg s e r).fault = none
      ∧ ∀ ev ∈ (processRecord env cfg s e r).events, isRoleMutation ev = false := by
  rcases processRecord_shapes env cfg s e r with h | ⟨nm, h⟩ | ⟨msg, h, hd⟩ | ⟨v, devs, h, hd⟩
  · rw [h]; exact ⟨rfl, rfl, by simp⟩
  · rw [h]; exact ⟨rfl, rfl, by simp [isRoleMutation]⟩
  · rw [hdry] at hd; exact absurd hd (by simp)
  · rw [hdry] at hd; exact absurd hd (by simp)

theorem processEntries_append (env : AuditEnv) (cfg : AuditCfg)
    (l1 l2 : List (String × EmailRecord)) (s : Store) :
    processEntries env cfg (l1 ++ l2) s
      = ((processEntries env cfg l2 (processEntries env cfg l1 s).1).1,
         (processEntries env cfg l1 s).2
           ++ (processEntries env cfg l2 (processEntries env cfg l1 s).1).2) := by
  induction l1 generalizing s with
  | nil => simp [processEntries]
  | cons p rest ih =>
    obtain ⟨e, r⟩ := p
    simp only [List.cons_append, processEntries, List.append_eq]
    rw [ih, List.append_assoc]

theorem processEntries_dryRun_frame (env : AuditEnv) (cfg : AuditCfg)
    (entries : List (String × EmailRecord)) (s : Store) (hdry : cfg.dryRun = true) :
    (processEntries env cfg entries s).1 = s
      ∧ ∀ ev ∈ (processEntries env cfg entries s).2, isRoleMutation ev = false := by
  induction entries generalizing s with
  | nil => exact ⟨rfl, by simp [processEntries]⟩
  | cons p rest ih =>
    obtain ⟨e, r⟩ := p
    obtain ⟨hst, hfault, hevs⟩ := processRecord_dryRun_frame env cfg s e r hdry
    obtain ⟨ihst, ihevs⟩ := ih (processRecord env cfg s e r).store
    constructor
    · show (processEntries env cfg rest (processRecord env cfg s e r).store).1 = s
      rw [ihst, hst]
    · intro ev hev
      simp only [processEntries] at hev
      rw [hfault] at hev
      rcases List.mem_append.mp hev with hev1 | hev2
      · exact hevs ev hev1
      · exact ihevs ev hev2

theorem processEntries_lookup_inert (env : AuditEnv) (cfg : AuditCfg)
    (entries : List (String × EmailRecord)) (s : Store) (email : String)
    (hq : ∀ r, (email, r) ∈ entries → AuditInert r) :
    List.lookup email (processEntries env cfg entries s).1 = List.lookup email s := by
  induction entries generalizing s with
  | nil => rfl
  | cons p rest ih =>
    obtain ⟨k, r⟩ := p
    have hrest : ∀ r2, (email, r2) ∈ rest → AuditInert r2 :=
      fun r2 hr2 => hq r2 (List.mem_cons_of_mem _ hr2)
    show List.lookup email
        (processEntries env cfg rest (processRecord env cfg s k r).store).1
      = List.lookup email s
    by_cases hk : k = email
    · subst hk
      have hin := hq r (List.mem_cons_self _ _)
      rw [ih (processRecord env cfg s k r).store hrest,
        (processRecord_inert_frame env cfg s k r hin).1]
    · rcases processRecord_shapes env cfg s k r with h | ⟨nm, h⟩ | ⟨msg, h, -⟩ | ⟨v, devs, h, -⟩
      all_goals rw [ih (processRecord env cfg s k r).store hrest, h]
      · exact lookup_updateAssoc_other s k email v (fun hkk => hk hkk.symm)

theorem runSubscriptionAudit_lookup_inert (env : AuditEnv) (cfg : AuditCfg)
    (store : Store) (email : String)
    (hq : ∀ r, (email, r) ∈ store → AuditInert r) :
    List.lookup email (runSubscriptionAudit env cfg store).1 = List.lookup email store :=
  processEntries_lookup_inert env cfg store store email hq

/-- C1 counterexample: a stored record with isSubscription true and
lastPaidAt null but no bound user id is skipped by the sweep with no
logged warning at all — the sweep trace holds only the start and end
boundaries — whereas the claim asserts a warning is always logged. -/
theorem audit_null_lastPaid_silent_skip_cex :
    exRecNullUid.isSubscription = true ∧ exRecNullUid.lastPaidAt = none
      ∧ (runSubscriptionAudit exAuditEnv ⟨35, false⟩ [("a@b.c", exRecNullUid)]).2
          = [Event.log "audit_start" "", Event.log "audit_end" ""] := by
  refine ⟨rfl, rfl, ?_⟩
  decide

/-- C1 (amended): a record with isSubscription true and lastPaidAt null
or unparseable is never downgraded and never mutated by the audit,
regardless of every other field; it is skipped with the corresponding
logged warning provided it carries a bound user id, and silently
otherwise.  The sweep-level part shows the stored record survives the
whole sweep unchanged. -/
theorem audit_null_lastPaid_never_mutates :
    (∀ (env : AuditEnv) (cfg : AuditCfg) (store : Store) (email : String) (rec : EmailRecord),
      rec.isSubscription = true →
      (rec.lastPaidAt = none ∨ rec.lastPaidAt = some PaidStamp.invalid) →
      (processRecord env cfg store email rec).store = store
        ∧ (processRecord env cfg store email rec).fault = none
        ∧ (∀ ev ∈ (processRecord env cfg store email rec).events, isRoleMutation ev = false)
        ∧ (rec.discordUserId ≠ "" → rec.lastPaidAt = none →
            (processRecord env cfg store email rec).events
              = [Event.log "audit_skip_missing_lastPaidAt" email])
        ∧ (rec.discordUserId ≠ "" → rec.lastPaidAt = some PaidStamp.invalid →
            (processRecord env cfg store email rec).events
              = [Event.log "audit_skip_invalid_lastPaidAt" email]))
    ∧ (∀ (env : AuditEnv) (cfg : AuditCfg) (store : Store) (email : String),
        (∀ r, (email, r) ∈ store → r.isSubscription = true →
          (r.lastPaidAt = none ∨ r.lastPaidAt = some PaidStamp.invalid)) →
        List.lookup email (runSubscriptionAudit env cfg store).1 = List.lookup email store) := by
  constructor
  · intro env cfg store email rec h1 h2
    have hin : AuditInert rec :=
      h2.elim (fun h => Or.inr (Or.inl h)) (fun h => Or.inr (Or.inr h))
    obtain ⟨hst, hf, hev⟩ := processRecord_inert_frame env cfg store email rec hin
    refine ⟨hst, hf, hev, ?_, ?_⟩
    · intro huid hnone
      rw [processRecord_missing env cfg store email rec h1 huid hnone]
    · intro huid hinv
      rw [processRecord_invalid env cfg store email rec h1 huid hinv]
  · intro env cfg store email hq
    apply runSubscriptionAudit_lookup_inert
    intro r hr
    cases hsub : r.isSubscription with
    | false => exact Or.inl hsub
    | true =>
      rcases hq r hr hsub with h | h
      · exact Or.inr (Or.inl h)
      · exact Or.inr (Or.inr h)

/-- Witness for the amended C1: a record with a bound user id, a
subscription flag and a null lastPaidAt is skipped with exactly the
missing-timestamp warning and the store is unchanged. -/
theorem audit_null_lastPaid_never_mutates_witness :
    (processRecord exAuditEnv ⟨35, false⟩ [("b@b.c", exRecNoPaid)] "b@b.c" exRecNoPaid).events
        = [Event.log "audit_skip_missing_lastPaidAt" "b@b.c"]
      ∧ (processRecord exAuditEnv ⟨35, false⟩ [("b@b.c", exRecNoPaid)] "b@b.c" exRecNoPaid).store
        = [("b@b.c", exRecNoPaid)] := by
  have h := audit_null_lastPaid_never_mutates.1 exAuditEnv ⟨35, false⟩
    [("b@b.c", exRecNoPaid)] "b@b.c" exRecNoPaid (by decide) (Or.inl (by decide))
  exact ⟨h.2.2.2.1 (by decide) (by decide), h.1⟩

/-- C3: with the default grace of 35 days, a subscription record whose
valid lastPaidAt is strictly fewer than 35 days old is left completely
untouched, while one 35 or more days old — with the member still
fetchable, a guild carrying the base role, and dry-run off — is
downgraded: the downgrade mutation is issued and the stored record ends
with its tier equal to the base role name. -/
theorem audit_grace_boundary :
    (∀ (env : AuditEnv) (cfg : AuditCfg) (store : Store) (email : String)
        (rec : EmailRecord) (t : Int),
      cfg.graceDays = 35 →
      rec.isSubscription = true →
      rec.lastPaidAt = some (PaidStamp.valid t) →
      daysBetween env.nowMs t < 35 →
      processRecord env cfg store email rec = ⟨store, [], none⟩)
    ∧ (∀ (env : AuditEnv) (cfg : AuditCfg) (store : Store) (email : String)
        (rec : EmailRecord) (t : Int) (g : List String),
      cfg.graceDays = 35 → cfg.dryRun = false →
      rec.isSubscription = true → rec.discordUserId ≠ "" →
      rec.lastPaidAt = some (PaidStamp.valid t) →
      35 ≤ daysBetween env.nowMs t →
      env.guild = some g → BASE_ROLE_NAME ∈ g →
      env.memberPresent rec.discordUserId = true →
      ∃ rec2 devs,
        processRecord env cfg store email rec
          = ⟨updateAssoc store email rec2,
             Event.log "audit_overdue_detected" email :: devs
               ++ [Event.log "audit_downgrade_success" email], none⟩
          ∧ rec2.tier = BASE_ROLE_NAME
          ∧ Event.addRole rec.discordUserId BASE_ROLE_NAME ∈ devs
          ∧ List.lookup email (processRecord env cfg store email rec).store = some rec2) := by
  constructor
  · intro env cfg store email rec t hg h1 h3 h4
    exact processRecord_fresh env cfg store email rec t h1 h3 (by rw [hg]; exact h4)
  · intro env cfg store email rec t g hg hdry h1 h2 h3 h35 h5 hbase h6
    have h4 : ¬(daysBetween env.nowMs t < cfg.graceDays) := by rw [hg]; omega
    obtain ⟨devs, hdg, hmem, heq⟩ :=
      processRecord_overdue env cfg store email rec t g h1 h2 h3 h4 h5 h6 hdry hbase
    refine ⟨_, devs, heq, rfl, hmem, ?_⟩
    rw [heq]
    exact lookup_updateAssoc_self store email _

/-- Witness for C3: a record 34 days old is untouched; a record 35 days
old is downgraded and its stored tier becomes the base role name. -/
theorem audit_grace_boundary_witness :
    processRecord exAuditEnv ⟨35, false⟩ [("a@b.c", exRecFresh)] "a@b.c" exRecFresh
        = ⟨[("a@b.c", exRecFresh)], [], none⟩
      ∧ (List.lookup "a@b.c" (processRecord exAuditEnv ⟨35, false⟩
            [("a@b.c", exRecOverdue)] "a@b.c" exRecOverdue).store).map (fun r => r.tier)
        = some BASE_ROLE_NAME := by
  constructor
  · exact audit_grace_boundary.1 exAuditEnv ⟨35, false⟩ _ "a@b.c" exRecFresh 86400000
      rfl (by decide) (by decide) (by decide)
  · obtain ⟨rec2, devs, heq, htier, hmem, hlook⟩ :=
      audit_grace_boundary.2 exAuditEnv ⟨35, false⟩ [("a@b.c", exRecOverdue)] "a@b.c"
        exRecOverdue 0 exGuildRoles rfl rfl (by decide) (by decide) (by decide)
        (by decide) rfl (by decide) rfl
    simp [hlook, htier]

/-- C7: when dry-run is on the whole sweep leaves the store unchanged
and issues no membership mutation at all, and an overdue subscription
record whose member is still present yields exactly the logged overdue
detection. -/
theorem audit_dry_run_no_mutation :
    (∀ (env : AuditEnv) (cfg : AuditCfg) (store : Store), cfg.dryRun = true →
      (runSubscriptionAudit env cfg store).1 = store
        ∧ ∀ ev ∈ (runSubscriptionAudit env cfg store).2, isRoleMutation ev = false)
    ∧ (∀ (env : AuditEnv) (cfg : AuditCfg) (store : Store) (email : String)
        (rec : EmailRecord) (t : Int) (g : List String),
        cfg.dryRun = true →
        rec.isSubscription = true → rec.discordUserId ≠ "" →
        rec.lastPaidAt = some (PaidStamp.valid t) →
        cfg.graceDays ≤ daysBetween env.nowMs t →
        env.guild = some g →
        env.memberPresent rec.discordUserId = true →
        processRecord env cfg store email rec
          = ⟨store, [Event.log "audit_overdue_detected" email], none⟩) := by
  constructor
  · intro env cfg store hdry
    obtain ⟨hst, hevs⟩ := processEntries_dryRun_frame env cfg store store hdry
    refine ⟨hst, ?_⟩
    intro ev hev
    simp only [runSubscriptionAudit] at hev
    rcases List.mem_cons.mp hev with rfl | hev2
    · rfl
    rcases List.mem_append.mp hev2 with hev3 | hev4
    · exact hevs ev hev3
    · rw [List.mem_singleton] at hev4
      subst hev4
      rfl
  · intro env cfg store email rec t g hdry h1 h2 h3 hle h5 h6
    exact processRecord_dryRun_detect env cfg store email rec t g h1 h2 h3 (by omega) h5 h6 hdry

/-- Witness for C7: the dry-run sweep over an overdue record returns the
store unchanged, and processing that record yields exactly the overdue
detection log. -/
theorem audit_dry_run_no_mutation_witness :
    (runSubscriptionAudit exAuditEnv ⟨35, true⟩ [("a@b.c", exRecOverdue)]).1
        = [("a@b.c", exRecOverdue)]
      ∧ processRecord exAuditEnv ⟨35, true⟩ [("a@b.c", exRecOverdue)] "a@b.c" exRecOverdue
        = ⟨[("a@b.c", exRecOverdue)], [Event.log "audit_overdue_detected" "a@b.c"], none⟩ := by
  refine ⟨(audit_dry_run_no_mutation.1 exAuditEnv ⟨35, true⟩ _ rfl).1, ?_⟩
  exact audit_dry_run_no_mutation.2 exAuditEnv ⟨35, true⟩ _ "a@b.c" exRecOverdue 0 exGuildRoles
    rfl (by decide) (by decide) (by decide) (by decide) rfl rfl

/-- C8: the sweep always emits the start and end boundaries around its
body, and a record whose processing faults contributes its events plus
a logged audit_error while every later record is still processed and
its events still appear, between the same boundaries. -/
theorem audit_fault_isolation :
    (∀ (env : AuditEnv) (cfg : AuditCfg) (store : Store),
      ∃ mids, (runSubscriptionAudit env cfg store).2
        = Event.log "audit_start" "" :: mids ++ [Event.log "audit_end" ""])
    ∧ (∀ (env : AuditEnv) (cfg : AuditCfg) (pre post : List (String × EmailRecord))
        (e : String) (r : EmailRecord) (msg : String),
        (processRecord env cfg
            (processEntries env cfg pre (pre ++ (e, r) :: post)).1 e r).fault = some msg →
        (runSubscriptionAudit env cfg (pre ++ (e, r) :: post)).2
          = Event.log "audit_start" ""
              :: ((processEntries env cfg pre (pre ++ (e, r) :: post)).2
                ++ (((processRecord env cfg
                      (processEntries env cfg pre (pre ++ (e, r) :: post)).1 e r).events
                    ++ [Event.log "audit_error" e])
                  ++ (processEntries env cfg post
                      (processRecord env cfg
                        (processEntries env cfg pre (pre ++ (e, r) :: post)).1 e r).store).2))
              ++ [Event.log "audit_end" ""]) := by
  constructor
  · intro env cfg store
    exact ⟨(processEntries env cfg store store).2, rfl⟩
  · intro env cfg pre post e r msg hfault
    simp only [runSubscriptionAudit, processEntries_append, processEntries, hfault]

/-- Witness for C8: with a guild lacking the base role the downgrade of
an overdue record throws; the sweep logs the error, still processes the
following record, and still emits both boundaries. -/
theorem audit_fault_isolation_witness :
    (runSubscriptionAudit exFaultEnv ⟨35, false⟩
        [("a@b.c", exRecOverdue), ("z@z.z", exRecNoPaid)]).2
      = [Event.log "audit_start" "",
         Event.log "audit_overdue_detected" "a@b.c",
         Event.log "audit_error" "a@b.c",
         Event.log "audit_skip_missing_lastPaidAt" "z@z.z",
         Event.log "audit_end" ""] := by
  have h := audit_fault_isolation.2 exFaultEnv ⟨35, false⟩ [] [("z@z.z", exRecNoPaid)]
    "a@b.c" exRecOverdue "Base role not found: Members" (by decide)
  exact h.trans (by decide)

theorem verifyHandler_verified_inv (env : VerifyEnv) (store : Store) (req : VerifyReq)
    (role : String) (s2 : Store) (evs : List Event) (items : List LineItem)
    (hitems : env.items = Except.ok items)
    (hrun : verifyHandler env store req = ⟨VerifyOutcome.verified role, s2, evs⟩) :
    ∃ tier newRoles roleEvs,
      pickHighestTier (items.map (fun i => i.title)) = some tier
      ∧ role = tier.role
      ∧ setExclusiveTierRole env.guildRoles env.memberRoles req.userId tier.role
          = Except.ok (newRoles, roleEvs)
      ∧ s2 = updateAssoc store (normEmail req.rawEmail)
          { discordUserId := req.userId,
            userTag := req.userTag,
            tier := tier.role,
            isSubscription := items.any (fun li =>
              isTierTitleMatch li.title tier.product && li.isSubscription),
            lastPaidAt := (computeLastPaid items).map PaidStamp.valid,
            lastAuditAt := none,
            lastAuditReason := none,
            updatedAt := env.nowMs } := by
  simp only [verifyHandler, hitems] at hrun
  split at hrun
  · injection hrun with h1 h2 h3
    exact VerifyOutcome.noConfusion h1
  split at hrun
  · injection hrun with h1 h2 h3
    exact VerifyOutcome.noConfusion h1
  split at hrun
  · injection hrun with h1 h2 h3
    exact VerifyOutcome.noConfusion h1
  split at hrun
  · injection hrun with h1 h2 h3
    exact VerifyOutcome.noConfusion h1
  rename_i tier htier
  split at hrun
  · injection hrun with h1 h2 h3
    exact VerifyOutcome.noConfusion h1
  rename_i nr revs hrole
  injection hrun with h1 h2 h3
  injection h1 with h4
  exact ⟨tier, nr, revs, htier, h4.symm, hrole, h2.symm⟩

theorem computeLastPaid_none (items : List LineItem) (h : ∀ li ∈ items, li.paidAt = none) :
    computeLastPaid items = none := by
  unfold computeLastPaid
  rw [List.filterMap_eq_nil_iff.mpr h]

theorem foldl_jsMaxD_ok (l : List DateVal) (a : Int) (h : ∀ d ∈ l, d ≠ DateVal.nan) :
    l.foldl jsMaxD (DateVal.ok a) = DateVal.ok ((l.filterMap dateOk).foldl max a) := by
  induction l generalizing a with
  | nil => rfl
  | cons d ds ih =>
    cases d with
    | nan => exact absurd rfl (h DateVal.nan (List.mem_cons_self _ _))
    | ok b =>
      have hds : ∀ x ∈ ds, x ≠ DateVal.nan := fun x hx => h x (List.mem_cons_of_mem _ hx)
      simp only [List.foldl_cons, List.filterMap_cons, jsMaxD, dateOk]
      exact ih (max a b) hds

theorem computeLastPaid_eq_max (items : List LineItem)
    (h : ∀ li ∈ items, li.paidAt ≠ some DateVal.nan) :
    computeLastPaid items = maxPaidAllItems items := by
  have hfun : (fun li : LineItem =>
      match li.paidAt with | some (DateVal.ok ms) => some ms | _ => none)
      = (fun li : LineItem => li.paidAt.bind dateOk) := by
    funext li
    cases hp : li.paidAt with
    | none => rfl
    | some d => cases d <;> rfl
  have hnonan : ∀ d ∈ items.filterMap (fun x => x.paidAt), d ≠ DateVal.nan := by
    intro d hd hdn
    subst hdn
    obtain ⟨li, hli, hpd⟩ := List.mem_filterMap.mp hd
    exact h li hli hpd
  unfold computeLastPaid maxPaidAllItems
  rw [hfun, ← List.filterMap_filterMap]
  cases hl : items.filterMap (fun x => x.paidAt) with
  | nil => rfl
  | cons d ds =>
    have hdok : d ≠ DateVal.nan := by
      intro hdn
      exact hnonan d (by rw [hl]; exact List.mem_cons_self _ _) hdn
    have hdsok : ∀ x ∈ ds, x ≠ DateVal.nan := by
      intro x hx
      exact hnonan x (by rw [hl]; exact List.mem_cons_of_mem _ hx)
    cases d with
    | nan => exact absurd rfl hdok
    | ok a =>
      simp [List.filterMap_cons, dateOk, foldl_jsMaxD_ok ds a hdsok]

/-- C5: a verify request for a well-formed email whose stored record is
bound to a different community user terminates in the conflict outcome,
leaves the store unchanged, and issues no membership API call: the
trace holds exactly the request log and the conflict log. -/
theorem verify_binding_conflict_no_mutation :
    ∀ (env : VerifyEnv) (store : Store) (req : VerifyReq) (rec : EmailRecord),
      normEmail req.rawEmail ≠ "" →
      includes (normEmail req.rawEmail) "@" = true →
      List.lookup (normEmail req.rawEmail) store = some rec →
      rec.discordUserId ≠ req.userId →
      verifyHandler env store req
        = ⟨VerifyOutcome.alreadyLinked, store,
           [Event.log "verify_requested" (normEmail req.rawEmail),
            Event.log "verify_email_already_linked" (normEmail req.rawEmail)]⟩ := by
  intro env store req rec hv1 hv2 hrec hdiff
  simp [verifyHandler, hrec, hv1, hv2, hdiff]

/-- Witness for C5: a conflicting verify request from userB against a
record bound to u1 ends in the conflict outcome with the store intact
and only the two log events. -/
theorem verify_binding_conflict_no_mutation_witness :
    verifyHandler exVerifyEnv [("buyer@example.com", exRecOverdue)] exReq
      = ⟨VerifyOutcome.alreadyLinked, [("buyer@example.com", exRecOverdue)],
         [Event.log "verify_requested" "buyer@example.com",
          Event.log "verify_email_already_linked" "buyer@example.com"]⟩ :=
  verify_binding_conflict_no_mutation exVerifyEnv [("buyer@example.com", exRecOverdue)] exReq
    exRecOverdue (by decide) (by decide) (by decide) (by decide)

/-- C6 counterexample: with a matched VIP subscription paid at time 100
and an unrelated one-time item paid at time 200, the persisted
lastPaidAt is 200 — the maximum over all fetched line items — while the
most recent payment among the items matching the granted tier is 100. -/
theorem verify_lastPaid_not_tier_scoped_cex :
    pickHighestTier (exItems.map (fun i => i.title)) = some ⟨"VIP ACCESS", "VIP"⟩
      ∧ specTierScopedLastPaid exItems ⟨"VIP ACCESS", "VIP"⟩ = some 100
      ∧ (List.lookup "buyer@example.com" (verifyHandler exVerifyEnv [] exReq).store).map
          (fun r => r.lastPaidAt) = some (some (PaidStamp.valid 200))
      ∧ some (PaidStamp.valid 200)
        ≠ (specTierScopedLastPaid exItems ⟨"VIP ACCESS", "VIP"⟩).map PaidStamp.valid := by
  exact ⟨by decide, by decide, by decide, by decide⟩

/-- C6 (amended): the lastPaidAt persisted by a successful verification
equals the most recent payment timestamp across ALL fetched line items
(null when none carries one); it is not scoped to the items matching
the granted tier. -/
theorem verify_lastPaid_max_all_items :
    ∀ (env : VerifyEnv) (store : Store) (req : VerifyReq) (items : List LineItem)
      (role : String) (s2 : Store) (evs : List Event),
      env.items = Except.ok items →
      (∀ li ∈ items, li.paidAt ≠ some DateVal.nan) →
      verifyHandler env store req = ⟨VerifyOutcome.verified role, s2, evs⟩ →
      ∃ rec2, List.lookup (normEmail req.rawEmail) s2 = some rec2
        ∧ rec2.lastPaidAt = (maxPaidAllItems items).map PaidStamp.valid := by
  intro env store req items role s2 evs hitems hclean hrun
  obtain ⟨tier, nr, revs, htier, hrole, hok, hs2⟩ :=
    verifyHandler_verified_inv env store req role s2 evs items hitems hrun
  subst hs2
  refine ⟨_, lookup_updateAssoc_self store (normEmail req.rawEmail) _, ?_⟩
  simp [computeLastPaid_eq_max items hclean]

/-- Witness for the amended C6: on the two-item fixture the persisted
lastPaidAt is the maximum over all items, 200. -/
theorem verify_lastPaid_max_all_items_witness :
    (List.lookup (normEmail exReq.rawEmail) (verifyHandler exVerifyEnv [] exReq).store).map
        (fun r => r.lastPaidAt) = some ((maxPaidAllItems exItems).map PaidStamp.valid) := by
  obtain ⟨rec2, hl, hlp⟩ := verify_lastPaid_max_all_items exVerifyEnv [] exReq exItems "VIP"
    (verifyHandler exVerifyEnv [] exReq).store (verifyHandler exVerifyEnv [] exReq).events
    rfl (by decide) (by decide)
  rw [hl]
  simp [hlp]

/-- C9: the Shopify helper requests no payment timestamp, so every line
item it yields carries none; a successful verification fed from it
therefore persists lastPaidAt null, and the audit never mutates a
stored record whose lastPaidAt is null. -/
theorem shopify_no_paidAt_audit_safe :
    (∀ (orders : List ShopOrder) (li : LineItem),
      li ∈ (getPaidLineItemsByEmail orders).map shopItemToLineItem → li.paidAt = none)
    ∧ (∀ (env : VerifyEnv) (store : Store) (req : VerifyReq) (orders : List ShopOrder)
        (role : String) (s2 : Store) (evs : List Event),
        env.items = Except.ok ((getPaidLineItemsByEmail orders).map shopItemToLineItem) →
        verifyHandler env store req = ⟨VerifyOutcome.verified role, s2, evs⟩ →
        ∃ rec2, List.lookup (normEmail req.rawEmail) s2 = some rec2 ∧ rec2.lastPaidAt = none)
    ∧ (∀ (env : AuditEnv) (cfg : AuditCfg) (store : Store) (email : String),
        (∀ r, (email, r) ∈ store → r.lastPaidAt = none) →
        List.lookup email (runSubscriptionAudit env cfg store).1 = List.lookup email store) := by
  refine ⟨?_, ?_, ?_⟩
  · intro orders li hli
    obtain ⟨i, hi, rfl⟩ := List.mem_map.mp hli
    rfl
  · intro env store req orders role s2 evs hitems hrun
    obtain ⟨tier, nr, revs, htier, hrole, hok, hs2⟩ :=
      verifyHandler_verified_inv env store req role s2 evs _ hitems hrun
    subst hs2
    refine ⟨_, lookup_updateAssoc_self store (normEmail req.rawEmail) _, ?_⟩
    have hnone : computeLastPaid ((getPaidLineItemsByEmail orders).map shopItemToLineItem)
        = none := by
      apply computeLastPaid_none
      intro li hli
      obtain ⟨i, hi, rfl⟩ := List.mem_map.mp hli
      rfl
    simp [hnone]
  · intro env cfg store email hq
    apply runSubscriptionAudit_lookup_inert
    intro r hr
    exact Or.inr (Or.inl (hq r hr))

/-- Witness for C9: the concrete Shopify order fixture yields items with
no paidAt, its successful verification stores lastPaidAt null, and the
audit leaves such a record untouched. -/
theorem shopify_no_paidAt_audit_safe_witness :
    (shopItemToLineItem ⟨"VIP ACCESS PASS", true, some "monthly"⟩).paidAt = none
      ∧ (List.lookup (normEmail exReq.rawEmail) (verifyHandler exShopEnv [] exReq).store).map
          (fun r => r.lastPaidAt) = some none
      ∧ List.lookup "c@c.c" (runSubscriptionAudit exAuditEnv ⟨35, false⟩
          [("c@c.c", exRecNoPaid)]).1 = List.lookup "c@c.c" [("c@c.c", exRecNoPaid)] := by
  refine ⟨?_, ?_, ?_⟩
  · exact shopify_no_paidAt_audit_safe.1 exOrders _ (by decide)
  · obtain ⟨rec2, hl, hlp⟩ := shopify_no_paidAt_audit_safe.2.1 exShopEnv [] exReq exOrders "VIP"
      (verifyHandler exShopEnv [] exReq).store (verifyHandler exShopEnv [] exReq).events
      rfl (by decide)
    rw [hl]
    simp [hlp]
  · refine shopify_no_paidAt_audit_safe.2.2 exAuditEnv ⟨35, false⟩ [("c@c.c", exRecNoPaid)]
      "c@c.c" ?_
    intro r hr
    injection List.mem_singleton.mp hr with h1 h2
    subst h2
    rfl

/-- C10: a missing store file and a corrupted store file both load as
the empty map instead of failing; the audit over such a load does
nothing but post its boundaries, every lookup misses, and the next save
fully overwrites whatever file state was there with the new map. -/
theorem loadEmailMap_corrupt_empty :
    loadEmailMap FileState.missing = []
      ∧ (∀ raw, loadEmailMap (FileState.corrupted raw) = [])
      ∧ (∀ (env : AuditEnv) (cfg : AuditCfg) (raw : String),
          runSubscriptionAudit env cfg (loadEmailMap (FileState.corrupted raw))
            = ([], [Event.log "audit_start" "", Event.log "audit_end" ""]))
      ∧ (∀ raw email, List.lookup email (loadEmailMap (FileState.corrupted raw)) = none)
      ∧ (∀ (f : FileState) (map2 : Store), saveEmailMap f map2 = FileState.parsed map2) :=
  ⟨rfl, fun _ => rfl, fun _ _ _ => rfl, fun _ _ => rfl, fun _ _ => rfl⟩

/-- Witness for C10: loading a concrete corrupted file yields the empty
map, a lookup in it misses, and saving over it stores the new map. -/
theorem loadEmailMap_corrupt_empty_witness :
    loadEmailMap (FileState.corrupted "not json") = []
      ∧ List.lookup "a@b.c" (loadEmailMap (FileState.corrupted "not json")) = none
      ∧ saveEmailMap (FileState.corrupted "not json") [("a@b.c", exRecNoPaid)]
        = FileState.parsed [("a@b.c", exRecNoPaid)] :=
  ⟨loadEmailMap_corrupt_empty.2.1 "not json",
   loadEmailMap_corrupt_empty.2.2.2.1 "not json" "a@b.c",
   loadEmailMap_corrupt_empty.2.2.2.2 (FileState.corrupted "not json") [("a@b.c", exRecNoPaid)]⟩

end XplxBot
